import Mathlib

/-!
Verification development for the Vehicle Signal Manager (vsm.py).

The Python source is embedded shallowly. The mutable tree of TreeNode
objects becomes an arena: nodes are indexed by natural numbers and the
tree is a total map from indices to node records, so parent pointers are
indices and mutation is functional update. Methods that recurse along
parent or child pointers take an explicit recursion fuel argument, since
an arbitrary arena is not known to be acyclic. threading.Timer objects
are modelled by a Boolean flag meaning "a timer object is outstanding
(the field is not None)"; the asynchronous firing of a timer is outside
the model, which covers the synchronous state transitions of the notify
methods. get_runtime() becomes an explicit integer parameter. Log lines
written through the logger become lists of strings returned next to the
updated tree.
-/

/-- Node kinds of the rules tree: the NODE_ constants of vsm.py
(root, block, condition, emit, parallel, sequence). -/
inductive NodeType where
  | root
  | block
  | condition
  | emit
  | parallel
  | sequence
  deriving DecidableEq, Repr

/-- Position of the condition node within a block (NODE_CONDITION_POS = 0). -/
def NODE_CONDITION_POS : Nat := 0

/-- Membership in WRAPPER_KEYWORDS = (NODE_PARALLEL, NODE_SEQUENCE). -/
def isWrapper (ty : NodeType) : Bool :=
  ty = NodeType.parallel || ty = NodeType.sequence

/-- One TreeNode of vsm.py. Fields set by TreeNode.__init__; the fields
that Python only creates for condition or sequence nodes are present on
every node here, carrying the same initial values the constructor would
give them. start_timer and stop_timer are true when the Python field
holds a live threading.Timer object and false when it is None. -/
structure Node where
  node_type : NodeType := NodeType.block
  parent : Option Nat := none
  children : List Nat := []
  rule : Option Nat := none
  condition_met : Bool := false
  monitor_init_time_ms : Int := -1
  start_timer : Bool := false
  stop_timer : Bool := false
  start_time_ms : Int := -1
  stop_time_ms : Int := -1
  signals : List String := []
  next_grandchild_index : Nat := 0
  deriving Repr

/-- The arena of TreeNode objects: a total map from node index to node. -/
def VsmTree : Type := Nat → Node

/-- Read a node of the arena. -/
def VsmTree.get (t : VsmTree) (i : Nat) : Node := t i

/-- Replace a node of the arena (models mutating one TreeNode). -/
def VsmTree.set (t : VsmTree) (i : Nat) (n : Node) : VsmTree :=
  fun j => if j = i then n else t j

/-- TreeNode.get_siblings: every child of the parent other than this node
(Python filters by object identity; arena indices play that role). -/
def get_siblings (t : VsmTree) (i : Nat) : List Nat :=
  match (VsmTree.get t i).parent with
  | none => []
  | some p => (VsmTree.get t p).children.filter (fun x => x != i)

/-- TreeNode.find_subconditions: for each sibling that is a parallel or
sequence wrapper, descend into the wrapper's first block child and collect
every condition grandchild, recursively. A wrapper with no child would
raise IndexError in Python; that dead branch yields the empty list here. -/
def find_subconditions : Nat → VsmTree → Nat → List Nat
  | 0, _, _ => []
  | fuel + 1, t, i =>
    if (VsmTree.get t i).node_type = NodeType.condition then
      (get_siblings t i).flatMap (fun s =>
        if isWrapper (VsmTree.get t s).node_type then
          (match (VsmTree.get t s).children with
            | [] => []
            | b :: _ => (VsmTree.get t b).children).flatMap (fun c =>
              if (VsmTree.get t c).node_type = NodeType.condition then
                c :: find_subconditions fuel t c
              else [])
        else [])
    else []

/-- TreeNode._get_ancestor_conditions: include this node when it is a
condition; then, unless this is the root or parentless, follow a wrapper
parent through the parent's sibling conditions, or else recurse into the
parent directly. -/
def get_ancestor_conditions_aux : Nat → VsmTree → Nat → List Nat
  | 0, _, _ => []
  | fuel + 1, t, i =>
    (if (VsmTree.get t i).node_type = NodeType.condition then [i] else []) ++
      (if (VsmTree.get t i).node_type ≠ NodeType.root then
        match (VsmTree.get t i).parent with
        | none => []
        | some p =>
          if isWrapper (VsmTree.get t p).node_type then
            (get_siblings t p).flatMap (fun ps =>
              if (VsmTree.get t ps).node_type = NodeType.condition then
                get_ancestor_conditions_aux fuel t ps
              else [])
          else
            get_ancestor_conditions_aux fuel t p
      else [])

/-- TreeNode.get_ancestor_conditions: the ancestor walk minus the node
itself; the empty list for non-condition or parentless nodes. -/
def get_ancestor_conditions (fuel : Nat) (t : VsmTree) (i : Nat) : List Nat :=
  if (VsmTree.get t i).node_type = NodeType.condition ∧ (VsmTree.get t i).parent ≠ none then
    (get_ancestor_conditions_aux fuel t i).erase i
  else []

/-- TreeNode._monitor_completed: cancel and clear both timers; on failure
also force condition_met to false and log the failure message. -/
def monitor_completed (t : VsmTree) (i : Nat) (succeeded : Bool)
    (failure_message : String) : VsmTree × List String :=
  let n := VsmTree.get t i
  let n := { n with start_timer := false, stop_timer := false }
  if succeeded then
    (VsmTree.set t i n, [])
  else
    (VsmTree.set t i { n with condition_met := false }, [failure_message])

/-- TreeNode.notify_ancestor_condition: on a parent turning true, arm the
monitor (record monitor_init_time_ms := now and start both timers) unless
a timer is already outstanding; on a parent turning false, cancel the
monitor silently. -/
def notify_ancestor_condition (t : VsmTree) (i : Nat) (st : Bool)
    (runtime : Int) : VsmTree × List String :=
  if st then
    let n := VsmTree.get t i
    if !n.start_timer && !n.stop_timer then
      (VsmTree.set t i
        { n with monitor_init_time_ms := runtime, start_timer := true, stop_timer := true }, [])
    else (t, [])
  else
    monitor_completed t i true ""

/-- The subcondition loop of TreeNode.notify_condition: each subcondition
receives notify_ancestor_condition with the current condition_met flag of
node i, re-read on every iteration as the Python loop does. -/
def notify_subs (i : Nat) (runtime : Int) :
    List Nat → VsmTree → VsmTree × List String
  | [], t => (t, [])
  | j :: js, t =>
    let r1 := notify_ancestor_condition t j (VsmTree.get t i).condition_met runtime
    let r2 := notify_subs i runtime js r1.1
    (r2.1, r1.2 ++ r2.2)

/-- TreeNode.condition_get_sequence_grandparent: the grandparent when this
node is a condition, the grandparent exists and is a sequence node. -/
def condition_get_sequence_grandparent (t : VsmTree) (i : Nat) : Option Nat :=
  if (VsmTree.get t i).node_type = NodeType.condition then
    match (VsmTree.get t i).parent with
    | none => none
    | some p =>
      match (VsmTree.get t p).parent with
      | none => none
      | some g =>
        if (VsmTree.get t g).node_type = NodeType.sequence then some g else none
  else none

/-- TreeNode.condition_is_sequence_next: whether this condition is the
condition child, at NODE_CONDITION_POS, of the block at the sequence
grandparent's next_grandchild_index. An out-of-range index or an empty
block would raise IndexError in Python; those dead branches yield false. -/
def condition_is_sequence_next (t : VsmTree) (i : Nat) : Bool :=
  match condition_get_sequence_grandparent t i with
  | none => false
  | some g =>
    match (VsmTree.get t g).children.get? (VsmTree.get t g).next_grandchild_index with
    | none => false
    | some b =>
      match (VsmTree.get t b).children.get? NODE_CONDITION_POS with
      | none => false
      | some c => c == i

/-- TreeNode.condition_is_sequence_blocked: a sequence grandparent exists
and this condition is not sequence-next. -/
def condition_is_sequence_blocked (t : VsmTree) (i : Nat) : Bool :=
  (condition_get_sequence_grandparent t i).isSome &&
    !condition_is_sequence_next t i

/-- TreeNode._sequence_iterate_safe, called on the grandparent g with the
condition grandchild c: when g is a sequence and c is sequence-next,
advance next_grandchild_index, wrapping to 0 at the number of children. -/
def sequence_iterate_safe (t : VsmTree) (g : Nat) (c : Nat) : VsmTree :=
  if (VsmTree.get t g).node_type ≠ NodeType.sequence then t
  else if condition_is_sequence_next t c then
    let n := VsmTree.get t g
    let next := n.next_grandchild_index + 1
    VsmTree.set t g { n with next_grandchild_index :=
      if n.children.length ≤ next then 0 else next }
  else t

/-- The failure message logged when a monitored subcondition drops within
the start/stop window, with the millisecond bounds interpolated. -/
def subcondition_fail_msg (start_time stop_time : Int) : String :=
  "subcondition not maintained between 'start' time of " ++ toString start_time ++
    "ms and 'stop' time of " ++ toString stop_time ++ "ms"

/-- The flag phase of TreeNode.notify_condition: on truth, set
condition_met when before the start deadline or when no monitor is armed;
on falsity, clear it and, when inside the monitor window with a timer
outstanding, complete the monitor as failed with the subcondition
message. -/
def notify_condition_flag (t : VsmTree) (i : Nat) (st : Bool)
    (runtime : Int) : VsmTree × List String :=
  let n := VsmTree.get t i
  let start_max_ms := n.monitor_init_time_ms + n.start_time_ms
  let stop_min_ms := n.monitor_init_time_ms + n.stop_time_ms
  if st then
    if runtime < start_max_ms ∨ (!n.start_timer && !n.stop_timer) = true then
      (VsmTree.set t i { n with condition_met := true }, [])
    else (t, [])
  else
    let t' := VsmTree.set t i { n with condition_met := false }
    if (start_max_ms ≤ runtime ∧ runtime < stop_min_ms) ∧
        (n.start_timer || n.stop_timer) = true then
      monitor_completed t' i false
        (subcondition_fail_msg n.start_time_ms n.stop_time_ms)
    else (t', [])

/-- TreeNode.notify_condition, continued: after the flag update, notify
every subcondition of the current flag, then let the grandparent iterate
its sequence. -/
def notify_condition (fuel : Nat) (t : VsmTree) (i : Nat) (st : Bool)
    (runtime : Int) : VsmTree × List String :=
  let step1 := notify_condition_flag t i st runtime
  let step2 := notify_subs i runtime (find_subconditions fuel step1.1 i) step1.1
  let step3 :=
    match (VsmTree.get step2.1 i).parent with
    | none => step2.1
    | some p =>
      match (VsmTree.get step2.1 p).parent with
      | none => step2.1
      | some g => sequence_iterate_safe step2.1 g i
  (step3, step1.2 ++ step2.2)

/-- A dynamic Python value as the engine stores it: the four variants the
ingest path produces. Floating-point values are represented by their
source text; the claims below never compute with a float, only carry it. -/
inductive PyValue where
  | str (s : String)
  | bool (b : Bool)
  | int (n : Int)
  | float (src : String)
  deriving DecidableEq, Repr

/-- Rendering of a stored value as str() shows it in log lines. A float
renders as its source text here, where Python would re-format it; no
claim below inspects a float rendering. -/
def py_str : PyValue → String
  | PyValue.str s => s
  | PyValue.bool b => if b then "True" else "False"
  | PyValue.int n => toString n
  | PyValue.float src => src

/-- Assignment into the variable store, as State._update_report_state
writes one signal: replace the binding in place or append a new one,
matching dict insertion-order semantics on an association list. -/
def update_vars : List (String × PyValue) → String → PyValue → List (String × PyValue)
  | [], k, v => [(k, v)]
  | kv :: rest, k, v =>
    if kv.1 == k then (k, v) :: rest else kv :: update_vars rest k v

/-- Replacement of every dot by an underscore in one identifier, as
State._undot_variables does to each key. -/
def undot_key (k : String) : String :=
  (k.toList.map (fun c => if c == '.' then '_' else c)).asString

/-- State._undot_variables: the dict comprehension over the store; a later
binding whose undotted key repeats an earlier one overwrites it, exactly
as repeated keys behave in a dict comprehension. -/
def undot_variables (varstore : List (String × PyValue)) : List (String × PyValue) :=
  varstore.foldl (fun acc kv => update_vars acc (undot_key kv.1) kv.2) []

/-- State.condition_changed: notify the condition node of its new truth,
read every ancestor condition flag (without re-evaluating the ancestors),
log the parent-condition and condition-check lines, and emit the inline
signal only when every ancestor flag is set, the result is true and an
emit signal is attached. Returns the tree after notify_condition, the log
lines, and the emissions performed. -/
def condition_changed (fuel : Nat) (t : VsmTree) (i : Nat) (condition : String)
    (result : Bool) (emit_signal : Option String) (emit_value : String)
    (runtime : Int) (varstore : List (String × PyValue)) :
    VsmTree × List String × List (String × String) :=
  let r1 := notify_condition fuel t i result runtime
  let ancestors := get_ancestor_conditions fuel r1.1 i
  let ancestor_logs := ancestors.flatMap (fun a =>
    (VsmTree.get r1.1 a).signals.map (fun s =>
      "parent condition: " ++ s ++ " == " ++
        (match List.lookup s varstore with
          | some v => py_str v
          | none => "(unset)")))
  let check_log := "condition: (" ++ condition ++ ") => " ++
    (if result then "True" else "False")
  let emits :=
    match emit_signal with
    | some e =>
      if ancestors.all (fun a => (VsmTree.get r1.1 a).condition_met) &&
          result && (e != "") then
        [(e, emit_value)]
      else []
    | none => []
  (r1.1, r1.2 ++ ancestor_logs ++ [check_log], emits)

/-- A compiled condition expression over the undotted variable names: the
fragment of Python expressions the claims below exercise. -/
inductive PyExpr where
  | lit (v : PyValue)
  | name (s : String)
  | eqOp (a b : PyExpr)
  | orOp (a b : PyExpr)
  | andOp (a b : PyExpr)
  | notOp (a : PyExpr)
  deriving DecidableEq, Repr

/-- Python truthiness of a stored value. A float is tested against the
text 0.0; no claim below applies truthiness to a float. -/
def truthy : PyValue → Bool
  | PyValue.str s => s != ""
  | PyValue.bool b => b
  | PyValue.int n => n != 0
  | PyValue.float src => src != "0.0"

/-- Python equality between stored values: like kinds compare their
payloads, bool compares with int numerically, unlike kinds are unequal.
Floats compare by source text here; no claim below compares floats. -/
def py_eq : PyValue → PyValue → Bool
  | PyValue.str a, PyValue.str b => a == b
  | PyValue.bool a, PyValue.bool b => a == b
  | PyValue.int a, PyValue.int b => a == b
  | PyValue.float a, PyValue.float b => a == b
  | PyValue.bool a, PyValue.int b => (if a then (1 : Int) else 0) == b
  | PyValue.int a, PyValue.bool b => a == (if b then (1 : Int) else 0)
  | _, _ => false

/-- Evaluation of a condition expression against the execution namespace,
with Python short-circuit semantics for the logical operators; a name
absent from the namespace raises NameError, modelled as the error case
carrying the name. -/
def eval_expr (env : String → Option PyValue) : PyExpr → Except String PyValue
  | PyExpr.lit v => Except.ok v
  | PyExpr.name s =>
    match env s with
    | some v => Except.ok v
    | none => Except.error s
  | PyExpr.eqOp a b =>
    match eval_expr env a with
    | Except.error e => Except.error e
    | Except.ok va =>
      match eval_expr env b with
      | Except.error e => Except.error e
      | Except.ok vb => Except.ok (PyValue.bool (py_eq va vb))
  | PyExpr.orOp a b =>
    match eval_expr env a with
    | Except.error e => Except.error e
    | Except.ok va => if truthy va then Except.ok va else eval_expr env b
  | PyExpr.andOp a b =>
    match eval_expr env a with
    | Except.error e => Except.error e
    | Except.ok va => if truthy va then eval_expr env b else Except.ok va
  | PyExpr.notOp a =>
    match eval_expr env a with
    | Except.error e => Except.error e
    | Except.ok va => Except.ok (PyValue.bool (!truthy va))

/-- The identifiers a condition expression mentions. -/
def expr_names : PyExpr → List String
  | PyExpr.lit _ => []
  | PyExpr.name s => [s]
  | PyExpr.eqOp a b => expr_names a ++ expr_names b
  | PyExpr.orOp a b => expr_names a ++ expr_names b
  | PyExpr.andOp a b => expr_names a ++ expr_names b
  | PyExpr.notOp a => expr_names a

/-- Execution of one compiled rule, as State.got_signal runs it: evaluate
the if condition against the undotted snapshot of the store; a NameError
is caught and the rule does nothing (the except NameError: pass of
got_signal); otherwise the true branch calls condition_changed with the
inline emit attached and the false branch calls it without one. The model
assumes condition-check logging is enabled, its default. -/
def run_rule (fuel : Nat) (t : VsmTree) (i : Nat) (condition : String)
    (cond : PyExpr) (emit_signal : Option String) (emit_value : String)
    (runtime : Int) (varstore : List (String × PyValue)) :
    VsmTree × List String × List (String × String) :=
  match eval_expr (fun k => List.lookup k (undot_variables varstore)) cond with
  | Except.error _ => (t, [], [])
  | Except.ok v =>
    if truthy v then
      condition_changed fuel t i condition true emit_signal emit_value runtime varstore
    else
      condition_changed fuel t i condition false none "" runtime varstore

/-- TreeNode.get_conditions_by_rule: scan below this node and collect the
condition nodes whose compiled rule is the given one (identity equality
in Python; rule identifiers here). -/
def get_conditions_by_rule (fuel : Nat) (t : VsmTree) (i : Nat) (r : Nat) : List Nat :=
  match fuel with
  | 0 => []
  | fuel' + 1 =>
    (VsmTree.get t i).children.flatMap (fun c => get_conditions_by_rule fuel' t c r) ++
      (if (VsmTree.get t i).node_type = NodeType.condition ∧
          (VsmTree.get t i).rule = some r then [i] else [])

/-- The inner loop of State.got_signal over one rule's matching condition
nodes: stop at the first sequence-blocked condition (Python breaks out of
the for loop there). -/
def first_blocked_skip (t : VsmTree) : List Nat → Bool
  | [] => false
  | c :: cs =>
    if condition_is_sequence_blocked t c then true else first_blocked_skip t cs

/-- The line State.got_signal logs when it skips a rule whose sequence
turn has not come up. -/
def sequence_skip_msg (signal : String) : String :=
  "changed value for signal '" ++ signal ++
    "' ignored because prior conditions in its sequence block have not been met"

/-- The rule loop of State.got_signal: for each rule indexed under the
received signal, resolve its condition nodes in the tree below the root;
when one of them is sequence-blocked, log the skip line and do not run
the rule, otherwise run it. Rule execution is abstracted by exec1, which
maps the tree through whatever the compiled rule does to it; the loop
threads the tree so a later rule sees the effects of an earlier one.
Returns the final tree, the skip log lines, and the executed rules. -/
def got_signal_rules (exec1 : VsmTree → Nat → VsmTree) (fuel : Nat) (root : Nat)
    (signal : String) : List Nat → VsmTree → VsmTree × List String × List Nat
  | [], t => (t, [], [])
  | r :: rs, t =>
    if first_blocked_skip t (get_conditions_by_rule fuel t root r) then
      let rest := got_signal_rules exec1 fuel root signal rs t
      (rest.1, sequence_skip_msg signal :: rest.2.1, rest.2.2)
    else
      let rest := got_signal_rules exec1 fuel root signal rs (exec1 t r)
      (rest.1, rest.2.1, r :: rest.2.2)

/-- Observable steps of the main receive loop. -/
inductive RunEvent where
  | log (msg : String)
  | processed (signal value : String)
  | closed
  deriving DecidableEq, Repr

/-- The run() receive loop over a finite trace of receive() results: a
None receive logs "skipping invalid message" and continues; a message
whose signal is quit closes the IPC object and breaks out of the loop;
any other message is handed to process. The Boolean is true when the loop
ended by the quit break. -/
def run_loop : List (Option (String × String)) → List RunEvent × Bool
  | [] => ([], false)
  | none :: rest =>
    let r := run_loop rest
    (RunEvent.log "skipping invalid message" :: r.1, r.2)
  | some (signal, value) :: rest =>
    if signal == "quit" then ([RunEvent.closed], true)
    else
      let r := run_loop rest
      (RunEvent.processed signal value :: r.1, r.2)

/-- The is_string helper inside process(): a value of length at least 3
whose first and last characters are a matching pair of double or single
quotes (a value of length 2 or less is never a string here). -/
def is_string (v : String) : Bool :=
  if v.length ≤ 2 then false
  else (v.front == '"' && v.back == '"') || (v.front == '\'' && v.back == '\'')

/-- The is_bool helper inside process(): only the four exact spellings. -/
def is_bool (v : String) : Bool :=
  v == "true" || v == "True" || v == "false" || v == "False"

/-- Base code points of the decimal-digit runs of Unicode 9.0, the
character database CPython 3.6 ships: every character of general category
Nd lies in exactly one run of ten code points starting at one of these
bases, with digit values 0 through 9 in order. Both str.isnumeric and
int() in the digit branch of process(), and the digit transform inside
float(), recognise exactly these characters as decimal digits. -/
def nd_digit_bases : List Nat :=
  [0x30, 0x660, 0x6F0, 0x7C0, 0x966, 0x9E6, 0xA66, 0xAE6, 0xB66, 0xBE6,
   0xC66, 0xCE6, 0xD66, 0xDE6, 0xE50, 0xED0, 0xF20, 0x1040, 0x1090, 0x17E0,
   0x1810, 0x1946, 0x19D0, 0x1A80, 0x1A90, 0x1B50, 0x1BB0, 0x1C40, 0x1C50,
   0xA620, 0xA8D0, 0xA900, 0xA9D0, 0xA9F0, 0xAA50, 0xABF0, 0xFF10,
   0x104A0, 0x11066, 0x110F0, 0x11136, 0x111D0, 0x112F0, 0x11450, 0x114D0,
   0x11650, 0x116C0, 0x11730, 0x118E0, 0x11C50, 0x16A60, 0x16B50,
   0x1D7CE, 0x1D7D8, 0x1D7E2, 0x1D7EC, 0x1D7F6, 0x1E950]

/-- The decimal digit value of a Unicode Nd character, none otherwise. -/
def nd_val? (c : Char) : Option Nat :=
  nd_digit_bases.findSome? (fun b =>
    if b ≤ c.toNat ∧ c.toNat < b + 10 then some (c.toNat - b) else none)

/-- Whether a character is a Unicode decimal digit (category Nd). -/
def is_nd (c : Char) : Bool :=
  (nd_val? c).isSome

/-- Drop one leading sign character, as the float grammar allows. -/
def strip_one_sign : List Char → List Char
  | [] => []
  | c :: cs => if c == '+' || c == '-' then cs else c :: cs

/-- The PEP 515 underscore rule of float(): walking the characters with
the previous one at hand, every underscore must be immediately preceded
and immediately followed by a decimal digit. -/
def underscores_ok_aux : Option Char → List Char → Bool
  | _, [] => true
  | prev, c :: rest =>
    if c = '_' then
      (match prev with
        | some p => is_nd p
        | none => false) &&
      (match rest with
        | n :: _ => is_nd n
        | [] => false) &&
      underscores_ok_aux (some c) rest
    else underscores_ok_aux (some c) rest

/-- Every underscore of the value sits between two decimal digits. -/
def underscores_ok (cs : List Char) : Bool :=
  underscores_ok_aux none cs

/-- Drop the digit-group underscores once they have been validated. -/
def remove_underscores (cs : List Char) : List Char :=
  cs.filter (fun c => c != '_')

/-- Acceptable mantissa for float(): decimal digits, optionally followed
by a dot and further digits, with at least one digit on some side of the
dot. -/
def mantissa_ok (cs : List Char) : Bool :=
  let ds := cs.takeWhile is_nd
  match cs.dropWhile is_nd with
  | [] => !ds.isEmpty
  | '.' :: frac => (!ds.isEmpty || !frac.isEmpty) && frac.all is_nd
  | _ => false

/-- Split a character list at the first exponent marker. -/
def split_exp : List Char → List Char × Option (List Char)
  | [] => ([], none)
  | c :: cs =>
    if c == 'e' || c == 'E' then ([], some cs)
    else
      let r := split_exp cs
      (c :: r.1, r.2)

/-- Acceptable exponent for float(): an optional sign then digits. -/
def exponent_ok (cs : List Char) : Bool :=
  let cs := strip_one_sign cs
  !cs.isEmpty && cs.all is_nd

/-- Whether float(v) succeeds, for the forms reaching process(): float()
first maps every Unicode decimal digit to its ASCII digit and validates
the PEP 515 underscores (each one between two digits), then parses an
optional ASCII sign, a digit/dot mantissa and an optional exponent. The
digits here are the full Unicode Nd set via is_nd, so the ASCII-mapping
step needs no separate model. Python additionally ignores surrounding
whitespace and accepts inf and nan spellings; the stream transport
already strips whitespace from incoming values with str.strip, whose
whitespace set covers the one float() ignores, and the inf/nan spellings
carry no dot, so neither reaches this dot-guarded branch. -/
def py_float_ok (v : String) : Bool :=
  underscores_ok v.toList &&
    (let cs := remove_underscores v.toList
     let me := split_exp (strip_one_sign cs)
     mantissa_ok me.1 &&
       (match me.2 with
         | none => true
         | some e => exponent_ok e))

/-- The combined gate of the integer branch of process(): the branch
stores int(value) when value.isnumeric() holds and int() succeeds.
isnumeric() is true exactly for nonempty strings of Unicode numeric
characters (categories Nd, Nl and No), and int() succeeds on such a
string exactly when every character is a decimal digit (Nd), each
contributing its digit value; an isnumeric string with an Nl or No
character (a Roman numeral, a fraction, a circled or superscript number)
makes int() raise ValueError, which process() catches in the same except
block, logging the same incorrect-value line, as the bare ValueError of
the not-numeric case. So folding the two tests into the nonempty-all-Nd
test below preserves the observable behaviour of process() - the stored
value, the log line and the drop - on every input. -/
def isnumeric_int_ok (v : String) : Bool :=
  !v.toList.isEmpty && v.toList.all is_nd

/-- The value[1:-1] slice stripping the surrounding quotes. -/
def strip_quotes (v : String) : String :=
  ((v.toList.drop 1).dropLast).asString

/-- Integer conversion of an all-digit value: each Unicode decimal digit
contributes its digit value in base ten, as int() computes it. -/
def str_to_int (v : String) : Int :=
  Int.ofNat (v.toList.foldl (fun a c => a * 10 + (nd_val? c).getD 0) 0)

/-- The classification chain of process() over the raw text value, in
source order: quoted string, boolean spelling, dot-bearing float, digit
integer; None and every other value raise ValueError, modelled as none.
A value that contains a dot but fails float() raises there and is
dropped without reaching the integer test, exactly as the source does. -/
def classify_value : Option String → Option PyValue
  | none => none
  | some v =>
    if is_string v then some (PyValue.str (strip_quotes v))
    else if is_bool v then some (PyValue.bool (v == "true" || v == "True"))
    else if v.toList.contains '.' then
      (if py_float_ok v then some (PyValue.float v) else none)
    else if isnumeric_int_ok v then some (PyValue.int (str_to_int v))
    else none

/-- Rendering of the raw value inside the error log line. -/
def raw_shown : Option String → String
  | none => "None"
  | some v => v

/-- process(): classify the raw value; on failure log the incorrect-value
error and drop the signal, leaving the store untouched and dispatching no
rule; on success store the typed value (the first thing got_signal does)
and dispatch, which the final Boolean records. -/
def process (varstore : List (String × PyValue)) (signal : String)
    (raw : Option String) : List (String × PyValue) × List String × Bool :=
  match classify_value raw with
  | none => (varstore, ["incorrect value: " ++ raw_shown raw], false)
  | some v => (update_vars varstore signal v, [], true)

/-- Modelled from the specification words of the value-typing rule, with
the one amendment the code forces (a quoted string needs a character
between the quotes): first match wins among quoted string of length at
least 3, boolean spelling, dot-bearing value that parses as a float,
all-decimal-digit integer; anything else is an error. Stated separately
from classify_value so the two chains can be compared. -/
def classify_spec (v : String) : Option PyValue :=
  if 3 ≤ v.length ∧
      ((v.front = '"' ∧ v.back = '"') ∨ (v.front = '\'' ∧ v.back = '\'')) then
    some (PyValue.str (strip_quotes v))
  else if v = "true" ∨ v = "True" then some (PyValue.bool true)
  else if v = "false" ∨ v = "False" then some (PyValue.bool false)
  else if v.toList.contains '.' ∧ py_float_ok v = true then some (PyValue.float v)
  else if v.toList ≠ [] ∧ v.toList.all is_nd = true then
    some (PyValue.int (str_to_int v))
  else none

example : py_float_ok "1_0.5" = true := by decide
example : py_float_ok "1.5e1_0" = true := by decide
example : py_float_ok "١٢.٥" = true := by decide
example : py_float_ok "١_٢.٠" = true := by decide
example : py_float_ok "-1_0.5e-1_0" = true := by decide
example : py_float_ok "1_.5" = false := by decide
example : py_float_ok "1._5" = false := by decide
example : py_float_ok "1__0.5" = false := by decide
example : py_float_ok "1.5e_1" = false := by decide
example : py_float_ok "a.b" = false := by decide
example : isnumeric_int_ok "١٢" = true := by decide
example : isnumeric_int_ok "１２" = true := by decide
example : str_to_int "١٢" = 12 := by decide
example : str_to_int "１２" = 12 := by decide
example : classify_value (some "1_0.5") = some (PyValue.float "1_0.5") := by decide
example : classify_value (some "١٢") = some (PyValue.int 12) := by decide

/-- Non-overlapping left-to-right split of a character list on the XOR
operator, the two consecutive caret characters, as str.split performs
it: the number of parts is one more than the number of occurrences. -/
def split_xor : List Char → List (List Char)
  | '^' :: '^' :: rest => [] :: split_xor rest
  | c :: rest =>
    (match split_xor rest with
      | [] => [[c]]
      | s :: ss => (c :: s) :: ss)
  | [] => [[]]

/-- Python str.strip() on a character list: drop whitespace from both
ends. -/
def py_strip (cs : List Char) : List Char :=
  ((cs.dropWhile Char.isWhitespace).reverse.dropWhile Char.isWhitespace).reverse

/-- _handle_xor_condition: when the split on the XOR operator yields
exactly a left and a right side, parenthesise their stripped texts around
the not-equal operator; any other number of parts raises ValueError at
the unpacking and the condition is returned unchanged. -/
def handle_xor_condition (condition : String) : String :=
  match split_xor condition.toList with
  | [lhs, rhs] =>
    ("(".toList ++ py_strip lhs ++ ") != (".toList ++ py_strip rhs ++ ")".toList).asString
  | _ => condition

/-- The XOR gate of State.handle_condition: rewrite through
_handle_xor_condition only when the source contains the operator (the
find test), which holds exactly when the split has at least two parts. -/
def handle_condition_rewrite (orig : String) : String :=
  if 2 ≤ (split_xor orig.toList).length then handle_xor_condition orig else orig

/-- REPLAY_RATE_MIN of vsm.py. -/
def REPLAY_RATE_MIN : ℚ := 1

/-- REPLAY_RATE_MAX of vsm.py. -/
def REPLAY_RATE_MAX : ℚ := 10000

/-- The replay-rate validation of the main block: exit(1) is reached only
when args.replay_rate is truthy (present and nonzero) and out of range.
The command-line float is modelled as a rational; the non-finite floats
argparse would also accept are outside the model. -/
def replay_rate_exits (replay_rate : Option ℚ) : Bool :=
  match replay_rate with
  | none => false
  | some r =>
    (r != 0) && (decide (r < REPLAY_RATE_MIN) || decide (REPLAY_RATE_MAX < r))

/-- A small concrete rules tree: a root block holding a condition (node 2,
whose condition_met flag is already set) beside a parallel wrapper whose
block holds a subcondition (node 5). -/
def c1_tree : VsmTree := fun i =>
  if i = 0 then { node_type := NodeType.root, children := [1] }
  else if i = 1 then { node_type := NodeType.block, parent := some 0, children := [2, 3] }
  else if i = 2 then
    { node_type := NodeType.condition, parent := some 1, condition_met := true,
      signals := ["transmission.gear"] }
  else if i = 3 then { node_type := NodeType.parallel, parent := some 1, children := [4] }
  else if i = 4 then { node_type := NodeType.block, parent := some 3, children := [5] }
  else { node_type := NodeType.condition, parent := some 4 }

/-- A small concrete sequence tree: a root holding a sequence wrapper with
two blocks, each wrapping one condition (nodes 3 and 5). -/
def c3_tree : VsmTree := fun i =>
  if i = 0 then { node_type := NodeType.root, children := [1] }
  else if i = 1 then { node_type := NodeType.sequence, parent := some 0, children := [2, 4] }
  else if i = 2 then { node_type := NodeType.block, parent := some 1, children := [3] }
  else if i = 3 then { node_type := NodeType.condition, parent := some 2, rule := some 0 }
  else if i = 4 then { node_type := NodeType.block, parent := some 1, children := [5] }
  else { node_type := NodeType.condition, parent := some 4, rule := some 1 }

/-- A minimal tree holding one condition node (node 2) under a block. -/
def c9_tree : VsmTree := fun i =>
  if i = 0 then { node_type := NodeType.root, children := [1] }
  else if i = 1 then { node_type := NodeType.block, parent := some 0, children := [2] }
  else { node_type := NodeType.condition, parent := some 1 }

example : get_ancestor_conditions 9 c1_tree 5 = [2] := by decide
example : (condition_changed 9 c1_tree 5 "sub" true (some "lights") "on" 0 []).2.2
    = [("lights", "on")] := by decide
example : condition_is_sequence_next c3_tree 3 = true := by decide
example : condition_is_sequence_next c3_tree 5 = false := by decide
example : condition_is_sequence_blocked c3_tree 5 = true := by decide
example : (VsmTree.get (notify_condition 9 c3_tree 3 true 0).1 1).next_grandchild_index
    = 1 := by decide

/-- Whether a receive result carries the quit signal name. -/
def quit_named : Option (String × String) → Bool
  | none => false
  | some m => m.1 == "quit"

/-- C5 counterexample: a quit message with the nonempty value 5 still
closes the sink and terminates the loop, although the claim requires the
value to be the empty string for termination. -/
theorem C5_quit_value_counterexample :
    run_loop [some ("quit", "5")] = ([RunEvent.closed], true) ∧ ("5" : String) ≠ "" := by
  decide

/-- C5 (amended): the receive loop terminates normally, closing the sink,
on any incoming message whose signal name is quit, whatever the value; it
terminates exactly when the trace carries a quit-named message; a None
receive logs the skip line and continues. -/
theorem C5_quit_terminates_amended :
    (∀ (value : String) (rest : List (Option (String × String))),
        run_loop (some ("quit", value) :: rest) = ([RunEvent.closed], true)) ∧
    (∀ (msgs : List (Option (String × String))),
        ((run_loop msgs).2 = true ↔ msgs.any quit_named = true)) ∧
    (∀ (rest : List (Option (String × String))),
        run_loop (none :: rest) =
          (RunEvent.log "skipping invalid message" :: (run_loop rest).1,
            (run_loop rest).2)) := by
  refine ⟨fun value rest => by simp [run_loop], fun msgs => ?_, fun rest => rfl⟩
  induction msgs with
  | nil => simp [run_loop]
  | cons m rest ih =>
    cases m with
    | none => simpa [run_loop, quit_named] using ih
    | some sv =>
      obtain ⟨s, v⟩ := sv
      by_cases hs : s == "quit"
      · simp [run_loop, quit_named, hs]
      · simpa [run_loop, quit_named, hs] using ih

/-- C7 counterexample: a condition containing two occurrences of the XOR
operator is passed through unchanged, although the claim requires every
condition containing the operator to be rewritten into the parenthesised
not-equal form. -/
theorem C7_multi_xor_counterexample :
    2 ≤ (split_xor ("a ^^ b ^^ c").toList).length ∧
    handle_condition_rewrite "a ^^ b ^^ c" = "a ^^ b ^^ c" := by
  decide

/-- C7 (amended): a condition in which the XOR operator occurs exactly
once (the split yields exactly two parts) is rewritten into the
parenthesised not-equal form over the stripped sides; a condition with no
occurrence or with several occurrences is passed through unchanged. -/
theorem C7_xor_rewrite_amended (s : String) :
    handle_condition_rewrite s =
      match split_xor s.toList with
      | [lhs, rhs] =>
        ("(".toList ++ py_strip lhs ++ ") != (".toList ++ py_strip rhs ++ ")".toList).asString
      | _ => s := by
  unfold handle_condition_rewrite handle_xor_condition
  by_cases h2 : 2 ≤ (split_xor s.toList).length
  · rw [if_pos h2]
  · rw [if_neg h2]
    cases h : split_xor s.toList with
    | nil => rfl
    | cons a tail =>
      cases tail with
      | nil => rfl
      | cons b tail2 =>
        rw [h] at h2
        exact absurd (by simp) h2

/-- C8 counterexample: the rate 0 lies below REPLAY_RATE_MIN, yet the
validation does not exit, because a zero float is falsy in the guard. -/
theorem C8_zero_rate_counterexample :
    (0 : ℚ) < REPLAY_RATE_MIN ∧ replay_rate_exits (some 0) = false := by
  constructor
  · norm_num [REPLAY_RATE_MIN]
  · rfl

/-- C8 (amended): a nonzero replay rate supplied on the command line is
rejected with exit code 1 exactly when it lies outside the inclusive
range, a rate inside the range is accepted, and the rate 0 is treated
like an absent flag and accepted. -/
theorem C8_replay_rate_amended :
    (∀ (r : ℚ), r ≠ 0 →
        (replay_rate_exits (some r) = true ↔ (r < REPLAY_RATE_MIN ∨ REPLAY_RATE_MAX < r))) ∧
    (∀ (r : ℚ), REPLAY_RATE_MIN ≤ r → r ≤ REPLAY_RATE_MAX →
        replay_rate_exits (some r) = false) ∧
    replay_rate_exits (some 0) = false ∧
    replay_rate_exits none = false := by
  refine ⟨fun r hr => ?_, fun r h1 h2 => ?_, rfl, rfl⟩
  · simp [replay_rate_exits, hr]
  · simp [replay_rate_exits, not_lt.mpr h1, not_lt.mpr h2]

/-- C10: the undotted snapshot collapses two distinct signal names whose
dots map to the same undotted key into a single entry, and the later
binding silently shadows the earlier one during condition evaluation. -/
theorem C10_undot_shadowing (k1 k2 : String) (v1 v2 : PyValue)
    (hne : k1 ≠ k2) (hcoll : undot_key k1 = undot_key k2) :
    undot_variables [(k1, v1), (k2, v2)] = [(undot_key k1, v2)] ∧
    List.lookup (undot_key k1) (undot_variables [(k1, v1), (k2, v2)]) = some v2 := by
  have h : undot_variables [(k1, v1), (k2, v2)]
      = update_vars (update_vars [] (undot_key k1) v1) (undot_key k2) v2 := rfl
  rw [h]
  simp [update_vars, hcoll, List.lookup]

/-- C10 witness: the names a.b and a_b collide after undotting and the
later value wins. -/
theorem C10_undot_shadowing_witness :
    undot_variables [("a.b", PyValue.int 1), ("a_b", PyValue.int 2)]
        = [(undot_key "a.b", PyValue.int 2)] ∧
    List.lookup (undot_key "a.b")
        (undot_variables [("a.b", PyValue.int 1), ("a_b", PyValue.int 2)])
      = some (PyValue.int 2) :=
  C10_undot_shadowing "a.b" "a_b" (PyValue.int 1) (PyValue.int 2)
    (by decide) (by decide)

/-- A condition mentioning the absent name b behind a short-circuiting or
whose left side already decides the result. -/
def c9_cond : PyExpr :=
  PyExpr.orOp (PyExpr.eqOp (PyExpr.name "a") (PyExpr.lit (PyValue.int 1)))
    (PyExpr.eqOp (PyExpr.name "b") (PyExpr.lit (PyValue.int 2)))

/-- A store in which only the signal a has been observed. -/
def c9_vars : List (String × PyValue) := [("a", PyValue.int 1)]

/-- C9 counterexample: the rule references the never-observed identifier
b, yet its execution logs a condition line and performs an emission,
because the or short-circuits before touching b. -/
theorem C9_short_circuit_counterexample :
    ("b" ∈ expr_names c9_cond) ∧
    List.lookup "b" (undot_variables c9_vars) = none ∧
    (run_rule 9 c9_tree 2 "a == 1 or b == 2" c9_cond (some "car.stop") "True" 0
        c9_vars).2.2 = [("car.stop", "True")] ∧
    (run_rule 9 c9_tree 2 "a == 1 or b == 2" c9_cond (some "car.stop") "True" 0
        c9_vars).2.1 ≠ [] := by
  decide

/-- C9 (amended): when evaluating the compiled condition against the
undotted snapshot actually raises NameError, the exception is caught: the
rule execution returns no error, logs nothing, emits nothing and leaves
the tree unchanged, so dispatch proceeds to the remaining rules. -/
theorem C9_nameerror_skipped_amended (fuel : Nat) (t : VsmTree) (i : Nat)
    (condition : String) (cond : PyExpr) (emit_signal : Option String)
    (emit_value : String) (runtime : Int) (varstore : List (String × PyValue))
    (s : String)
    (h : eval_expr (fun k => List.lookup k (undot_variables varstore)) cond
        = Except.error s) :
    run_rule fuel t i condition cond emit_signal emit_value runtime varstore
      = (t, [], []) := by
  unfold run_rule
  rw [h]

/-- A condition consisting only of a comparison against the absent name. -/
def c9w_cond : PyExpr := PyExpr.eqOp (PyExpr.name "b") (PyExpr.lit (PyValue.int 2))

/-- C9 witness: a rule whose condition evaluation raises NameError is
skipped without logs, emissions or tree changes. -/
theorem C9_nameerror_skipped_witness :
    run_rule 9 c9_tree 2 "b == 2" c9w_cond (some "car.stop") "True" 0 c9_vars
      = (c9_tree, [], []) :=
  C9_nameerror_skipped_amended 9 c9_tree 2 "b == 2" c9w_cond (some "car.stop")
    "True" 0 c9_vars "b" rfl

/-- The quoted-string test of process() characterised: true exactly for
values of length at least 3 whose ends are a matching quote pair. -/
theorem is_string_iff (v : String) :
    is_string v = true ↔
      3 ≤ v.length ∧
        ((v.front = '"' ∧ v.back = '"') ∨ (v.front = '\'' ∧ v.back = '\'')) := by
  unfold is_string
  by_cases hl : v.length ≤ 2
  · have h3 : ¬ 3 ≤ v.length := by omega
    simp [hl, h3]
  · have h3 : 3 ≤ v.length := by omega
    simp [hl, h3]

/-- A value containing a dot is not all decimal digits. -/
theorem contains_dot_not_digits (v : String) (h : v.toList.contains '.' = true) :
    v.toList.all is_nd = false := by
  have hmem : '.' ∈ v.toList := by
    simpa using h
  by_contra hall
  rw [Bool.not_eq_false] at hall
  exact absurd (List.all_eq_true.mp hall '.' hmem) (by decide)

/-- The classification chain of process agrees pointwise with the chain as
the amended specification words it. -/
theorem classify_agree (v : String) : classify_value (some v) = classify_spec v := by
  unfold classify_value classify_spec
  by_cases hq : 3 ≤ v.length ∧
      ((v.front = '"' ∧ v.back = '"') ∨ (v.front = '\'' ∧ v.back = '\''))
  · have h1 : is_string v = true := (is_string_iff v).mpr hq
    simp [h1, hq]
  · have h1 : is_string v = false := by
      cases h : is_string v
      · rfl
      · exact absurd ((is_string_iff v).mp h) hq
    simp only [h1, Bool.false_eq_true, if_false, if_neg hq]
    by_cases hb1 : v = "true" ∨ v = "True"
    · have hbool : is_bool v = true := by
        rcases hb1 with h | h <;> simp [is_bool, h]
      have hval : (v == "true" || v == "True") = true := by
        rcases hb1 with h | h <;> simp [h]
      simp [hbool, hval, hb1]
    · by_cases hb2 : v = "false" ∨ v = "False"
      · have hbool : is_bool v = true := by
          rcases hb2 with h | h <;> simp [is_bool, h]
        have hval : (v == "true" || v == "True") = false := by
          rcases hb2 with h | h <;> subst h <;> decide
        simp [hbool, hval, hb1, hb2]
      · have hbool : is_bool v = false := by
          push_neg at hb1 hb2
          simp [is_bool, hb1.1, hb1.2, hb2.1, hb2.2]
        simp only [hbool, Bool.false_eq_true, if_false, if_neg hb1, if_neg hb2]
        by_cases hdot : v.toList.contains '.' = true
        · by_cases hfl : py_float_ok v = true
          · have hmem2 : '.' ∈ v.data := by simpa using hdot
            simp [hdot, hfl, hmem2]
          · have hnd := contains_dot_not_digits v hdot
            have hndig : ¬ (v.toList ≠ [] ∧ v.toList.all is_nd = true) := by
              intro hc
              rw [hnd] at hc
              exact absurd hc.2 (by decide)
            rw [if_pos hdot, if_neg hfl, if_neg (fun hc => hfl hc.2),
              if_neg hndig]
        · by_cases hnum : isnumeric_int_ok v = true
          · have hsp : v.toList ≠ [] ∧ v.toList.all is_nd = true := by
              unfold isnumeric_int_ok at hnum
              rw [Bool.and_eq_true] at hnum
              exact ⟨by simpa using hnum.1, hnum.2⟩
            rw [if_neg hdot, if_pos hnum, if_neg (fun hc => hdot hc.1),
              if_pos hsp]
          · have hns : ¬ (v.toList ≠ [] ∧ v.toList.all is_nd = true) := by
              intro hc
              apply hnum
              unfold isnumeric_int_ok
              rw [Bool.and_eq_true]
              exact ⟨by simpa using hc.1, hc.2⟩
            rw [if_neg hdot, if_neg hnum, if_neg (fun hc => hdot hc.1),
              if_neg hns]

/-- C6 counterexample: the two-character value consisting of a matching
pair of double quotes has quote characters first and last, yet process
logs the incorrect-value error and drops it instead of storing the empty
string, because the is_string test requires length above two. -/
theorem C6_short_quoted_counterexample :
    "\"\"".front = '"' ∧ "\"\"".back = '"' ∧
    process [] "phone.call" (some "\"\"")
      = ([], ["incorrect value: \"\""], false) := by
  decide

/-- C6 (amended): ingest classification follows the claimed first-match
order once a quoted string is required to have length at least 3: the
code chain coincides pointwise with the specification chain, a classified
value is stored and dispatched, an unclassifiable value logs the
incorrect-value error and is dropped with the store untouched and no rule
run, and a missing value is logged as None. -/
theorem C6_value_typing_amended :
    (∀ (v : String), classify_value (some v) = classify_spec v) ∧
    (∀ (varstore : List (String × PyValue)) (signal : String) (v : String),
        process varstore signal (some v) =
          match classify_spec v with
          | some val => (update_vars varstore signal val, [], true)
          | none => (varstore, ["incorrect value: " ++ v], false)) ∧
    (∀ (varstore : List (String × PyValue)) (signal : String),
        process varstore signal none
          = (varstore, ["incorrect value: None"], false)) := by
  refine ⟨classify_agree, fun varstore signal v => ?_, fun varstore signal => rfl⟩
  cases h : classify_spec v with
  | none =>
    simp only [process, classify_agree v, h, raw_shown]
  | some val =>
    simp only [process, classify_agree v, h]

/-- C1: when the inline emit of a condition rule fires inside
State.condition_changed, the condition evaluated true in that execution
and, in the tree state at the moment of emission, the condition_met flag
of every ancestor condition returned by get_ancestor_conditions (read
without re-evaluating the ancestors) is set; contrapositively, a single
false ancestor flag suppresses the emission even for a true condition. -/
theorem C1_emit_requires_true_and_met_ancestors (fuel : Nat) (t : VsmTree)
    (i : Nat) (condition : String) (result : Bool) (emit_signal : Option String)
    (emit_value : String) (runtime : Int) (varstore : List (String × PyValue))
    (h : (condition_changed fuel t i condition result emit_signal emit_value
        runtime varstore).2.2 ≠ []) :
    result = true ∧
      (get_ancestor_conditions fuel
            (condition_changed fuel t i condition result emit_signal emit_value
              runtime varstore).1 i).all
          (fun a =>
            (VsmTree.get
              (condition_changed fuel t i condition result emit_signal emit_value
                runtime varstore).1 a).condition_met)
        = true := by
  unfold condition_changed at h ⊢
  cases emit_signal with
  | none => simp at h
  | some e =>
    by_cases hc :
        ((get_ancestor_conditions fuel (notify_condition fuel t i result runtime).1 i).all
            (fun a =>
              (VsmTree.get (notify_condition fuel t i result runtime).1 a).condition_met)
          && result && (e != "")) = true
    · rw [Bool.and_eq_true, Bool.and_eq_true] at hc
      exact ⟨hc.1.2, hc.1.1⟩
    · exact absurd (by simp [hc]) h

/-- C1 witness: with the ancestor condition of node 5 already met, the
inline emit fires and every ancestor flag is set at that moment. -/
theorem C1_emit_requires_true_and_met_ancestors_witness :
    true = true ∧
      (get_ancestor_conditions 9
            (condition_changed 9 c1_tree 5 "sub" true (some "lights") "on" 0 []).1 5).all
          (fun a =>
            (VsmTree.get
              (condition_changed 9 c1_tree 5 "sub" true (some "lights") "on" 0 []).1
              a).condition_met)
        = true :=
  C1_emit_requires_true_and_met_ancestors 9 c1_tree 5 "sub" true (some "lights")
    "on" 0 [] (by decide)

/-- Reading after writing in the arena. -/
theorem VsmTree.get_set (t : VsmTree) (i : Nat) (n : Node) (j : Nat) :
    VsmTree.get (VsmTree.set t i n) j = if j = i then n else VsmTree.get t j := rfl

/-- Writing the same slot twice keeps only the second write. -/
theorem VsmTree.set_set (t : VsmTree) (i : Nat) (a b : Node) :
    VsmTree.set (VsmTree.set t i a) i b = VsmTree.set t i b := by
  funext j
  simp only [VsmTree.set]
  split <;> rfl

/-- The flag phase on a condition turning false, in closed form: the flag
is cleared, and inside the monitor window with a timer outstanding the
monitor completes as failed, clearing both timers and logging the
subcondition message. -/
theorem notify_condition_flag_false (t : VsmTree) (i : Nat) (runtime : Int) :
    notify_condition_flag t i false runtime =
      if (((VsmTree.get t i).monitor_init_time_ms + (VsmTree.get t i).start_time_ms ≤ runtime ∧
            runtime < (VsmTree.get t i).monitor_init_time_ms + (VsmTree.get t i).stop_time_ms) ∧
          ((VsmTree.get t i).start_timer || (VsmTree.get t i).stop_timer) = true) then
        (VsmTree.set t i
          { VsmTree.get t i with condition_met := false, start_timer := false, stop_timer := false },
          [subcondition_fail_msg (VsmTree.get t i).start_time_ms
            (VsmTree.get t i).stop_time_ms])
      else
        (VsmTree.set t i { VsmTree.get t i with condition_met := false }, []) := by
  simp only [notify_condition_flag, monitor_completed, Bool.false_eq_true, if_false]
  by_cases hw : (((VsmTree.get t i).monitor_init_time_ms + (VsmTree.get t i).start_time_ms ≤ runtime ∧
        runtime < (VsmTree.get t i).monitor_init_time_ms + (VsmTree.get t i).stop_time_ms) ∧
      ((VsmTree.get t i).start_timer || (VsmTree.get t i).stop_timer) = true)
  · rw [if_pos hw, if_pos hw, VsmTree.set_set]
    have hnode : VsmTree.get (VsmTree.set t i
        { VsmTree.get t i with condition_met := false }) i
        = { VsmTree.get t i with condition_met := false } := by
      rw [VsmTree.get_set, if_pos rfl]
    rw [hnode]
  · rw [if_neg hw, if_neg hw]

/-- While the notifying condition is false, every subcondition receives a
silent monitor cancellation: the loop adds no log line and the notifying
flag stays false. -/
theorem notify_subs_met_false (i : Nat) (rt : Int) (js : List Nat) (t : VsmTree)
    (h : (VsmTree.get t i).condition_met = false) :
    (notify_subs i rt js t).2 = [] ∧
      (VsmTree.get (notify_subs i rt js t).1 i).condition_met = false := by
  induction js generalizing t with
  | nil => exact ⟨rfl, h⟩
  | cons j js ih =>
    have hstep : notify_ancestor_condition t j (VsmTree.get t i).condition_met rt
        = (VsmTree.set t j
            { VsmTree.get t j with start_timer := false, stop_timer := false }, []) := by
      rw [h]
      rfl
    have hmet : (VsmTree.get (VsmTree.set t j
        { VsmTree.get t j with start_timer := false, stop_timer := false })
          i).condition_met = false := by
      rw [VsmTree.get_set]
      by_cases hij : i = j
      · rw [if_pos hij, ← hij]
        exact h
      · rw [if_neg hij]
        exact h
    obtain ⟨ih1, ih2⟩ := ih _ hmet
    constructor
    · simp only [notify_subs, hstep]
      simpa using ih1
    · simp only [notify_subs, hstep]
      exact ih2

/-- While the notifying condition is false with both of its timers already
cleared, the subcondition loop leaves its timers cleared. -/
theorem notify_subs_timers_false (i : Nat) (rt : Int) (js : List Nat) (t : VsmTree)
    (h : (VsmTree.get t i).condition_met = false)
    (h1 : (VsmTree.get t i).start_timer = false)
    (h2 : (VsmTree.get t i).stop_timer = false) :
    (VsmTree.get (notify_subs i rt js t).1 i).start_timer = false ∧
      (VsmTree.get (notify_subs i rt js t).1 i).stop_timer = false := by
  induction js generalizing t with
  | nil => exact ⟨h1, h2⟩
  | cons j js ih =>
    have hstep : notify_ancestor_condition t j (VsmTree.get t i).condition_met rt
        = (VsmTree.set t j
            { VsmTree.get t j with start_timer := false, stop_timer := false }, []) := by
      rw [h]
      rfl
    have hget := VsmTree.get_set t j
      { VsmTree.get t j with start_timer := false, stop_timer := false } i
    have hmet : (VsmTree.get (VsmTree.set t j
        { VsmTree.get t j with start_timer := false, stop_timer := false })
          i).condition_met = false := by
      rw [hget]
      by_cases hij : i = j
      · rw [if_pos hij, ← hij]
        exact h
      · rw [if_neg hij]
        exact h
    have ht1 : (VsmTree.get (VsmTree.set t j
        { VsmTree.get t j with start_timer := false, stop_timer := false })
          i).start_timer = false := by
      rw [hget]
      by_cases hij : i = j
      · rw [if_pos hij]
      · rw [if_neg hij]
        exact h1
    have ht2 : (VsmTree.get (VsmTree.set t j
        { VsmTree.get t j with start_timer := false, stop_timer := false })
          i).stop_timer = false := by
      rw [hget]
      by_cases hij : i = j
      · rw [if_pos hij]
      · rw [if_neg hij]
        exact h2
    obtain ⟨ih1, ih2⟩ := ih _ hmet ht1 ht2
    exact ⟨by simpa only [notify_subs, hstep] using ih1,
      by simpa only [notify_subs, hstep] using ih2⟩

/-- The sequence iteration touches only next_grandchild_index: the runtime
condition fields of every node are unchanged. -/
theorem sequence_iterate_runtime_fields (t : VsmTree) (g c k : Nat) :
    (VsmTree.get (sequence_iterate_safe t g c) k).condition_met
        = (VsmTree.get t k).condition_met ∧
      (VsmTree.get (sequence_iterate_safe t g c) k).start_timer
        = (VsmTree.get t k).start_timer ∧
      (VsmTree.get (sequence_iterate_safe t g c) k).stop_timer
        = (VsmTree.get t k).stop_timer := by
  unfold sequence_iterate_safe
  split
  · exact ⟨rfl, rfl, rfl⟩
  · split
    · rw [VsmTree.get_set]
      by_cases hk : k = g
      · rw [if_pos hk, hk]
        exact ⟨rfl, rfl, rfl⟩
      · rw [if_neg hk]
        exact ⟨rfl, rfl, rfl⟩
    · exact ⟨rfl, rfl, rfl⟩

/-- C4: when a monitored condition turns false at a runtime inside the
window from monitor_init_time_ms plus start_time_ms up to but excluding
monitor_init_time_ms plus stop_time_ms while a timer is outstanding,
notify_condition cancels and clears both timers, leaves condition_met
false, and logs exactly the subcondition-not-maintained line with the
start and stop milliseconds; turning false outside that window, or with
no timer outstanding, logs nothing. -/
theorem C4_monitor_window_failure (fuel : Nat) (t : VsmTree) (i : Nat) (runtime : Int) :
    (notify_condition fuel t i false runtime).2 =
      (if (((VsmTree.get t i).monitor_init_time_ms + (VsmTree.get t i).start_time_ms ≤ runtime ∧
            runtime < (VsmTree.get t i).monitor_init_time_ms + (VsmTree.get t i).stop_time_ms) ∧
          ((VsmTree.get t i).start_timer || (VsmTree.get t i).stop_timer) = true) then
        [subcondition_fail_msg (VsmTree.get t i).start_time_ms (VsmTree.get t i).stop_time_ms]
      else []) ∧
    (VsmTree.get (notify_condition fuel t i false runtime).1 i).condition_met = false ∧
    ((((VsmTree.get t i).monitor_init_time_ms + (VsmTree.get t i).start_time_ms ≤ runtime ∧
        runtime < (VsmTree.get t i).monitor_init_time_ms + (VsmTree.get t i).stop_time_ms) ∧
      ((VsmTree.get t i).start_timer || (VsmTree.get t i).stop_timer) = true) →
      (VsmTree.get (notify_condition fuel t i false runtime).1 i).start_timer = false ∧
      (VsmTree.get (notify_condition fuel t i false runtime).1 i).stop_timer = false) := by
  by_cases hw : (((VsmTree.get t i).monitor_init_time_ms + (VsmTree.get t i).start_time_ms ≤ runtime ∧
        runtime < (VsmTree.get t i).monitor_init_time_ms + (VsmTree.get t i).stop_time_ms) ∧
      ((VsmTree.get t i).start_timer || (VsmTree.get t i).stop_timer) = true)
  · simp only [notify_condition, notify_condition_flag_false, if_pos hw]
    have hA : (VsmTree.get (VsmTree.set t i
        { VsmTree.get t i with condition_met := false, start_timer := false, stop_timer := false })
          i).condition_met = false := by
      rw [VsmTree.get_set, if_pos rfl]
    have hA1 : (VsmTree.get (VsmTree.set t i
        { VsmTree.get t i with condition_met := false, start_timer := false, stop_timer := false })
          i).start_timer = false := by
      rw [VsmTree.get_set, if_pos rfl]
    have hA2 : (VsmTree.get (VsmTree.set t i
        { VsmTree.get t i with condition_met := false, start_timer := false, stop_timer := false })
          i).stop_timer = false := by
      rw [VsmTree.get_set, if_pos rfl]
    obtain ⟨hl, hm⟩ := notify_subs_met_false i runtime
      (find_subconditions fuel (VsmTree.set t i
        { VsmTree.get t i with condition_met := false, start_timer := false, stop_timer := false }) i)
      _ hA
    obtain ⟨hs1, hs2⟩ := notify_subs_timers_false i runtime
      (find_subconditions fuel (VsmTree.set t i
        { VsmTree.get t i with condition_met := false, start_timer := false, stop_timer := false }) i)
      _ hA hA1 hA2
    refine ⟨by simp [hl], ?_, fun _ => ⟨?_, ?_⟩⟩
    · cases hp : (VsmTree.get (notify_subs i runtime
          (find_subconditions fuel (VsmTree.set t i
            { VsmTree.get t i with condition_met := false, start_timer := false, stop_timer := false }) i)
          (VsmTree.set t i
            { VsmTree.get t i with condition_met := false, start_timer := false, stop_timer := false })).1
          i).parent with
      | none => simpa [hp] using hm
      | some p =>
        cases hg : (VsmTree.get (notify_subs i runtime
            (find_subconditions fuel (VsmTree.set t i
              { VsmTree.get t i with condition_met := false, start_timer := false, stop_timer := false }) i)
            (VsmTree.set t i
              { VsmTree.get t i with condition_met := false, start_timer := false, stop_timer := false })).1
            p).parent with
        | none => simpa [hp, hg] using hm
        | some g =>
          simp only [hp, hg]
          rw [(sequence_iterate_runtime_fields _ g i i).1]
          exact hm
    · cases hp : (VsmTree.get (notify_subs i runtime
          (find_subconditions fuel (VsmTree.set t i
            { VsmTree.get t i with condition_met := false, start_timer := false, stop_timer := false }) i)
          (VsmTree.set t i
            { VsmTree.get t i with condition_met := false, start_timer := false, stop_timer := false })).1
          i).parent with
      | none => simpa [hp] using hs1
      | some p =>
        cases hg : (VsmTree.get (notify_subs i runtime
            (find_subconditions fuel (VsmTree.set t i
              { VsmTree.get t i with condition_met := false, start_timer := false, stop_timer := false }) i)
            (VsmTree.set t i
              { VsmTree.get t i with condition_met := false, start_timer := false, stop_timer := false })).1
            p).parent with
        | none => simpa [hp, hg] using hs1
        | some g =>
          simp only [hp, hg]
          rw [(sequence_iterate_runtime_fields _ g i i).2.1]
          exact hs1
    · cases hp : (VsmTree.get (notify_subs i runtime
          (find_subconditions fuel (VsmTree.set t i
            { VsmTree.get t i with condition_met := false, start_timer := false, stop_timer := false }) i)
          (VsmTree.set t i
            { VsmTree.get t i with condition_met := false, start_timer := false, stop_timer := false })).1
          i).parent with
      | none => simpa [hp] using hs2
      | some p =>
        cases hg : (VsmTree.get (notify_subs i runtime
            (find_subconditions fuel (VsmTree.set t i
              { VsmTree.get t i with condition_met := false, start_timer := false, stop_timer := false }) i)
            (VsmTree.set t i
              { VsmTree.get t i with condition_met := false, start_timer := false, stop_timer := false })).1
            p).parent with
        | none => simpa [hp, hg] using hs2
        | some g =>
          simp only [hp, hg]
          rw [(sequence_iterate_runtime_fields _ g i i).2.2]
          exact hs2
  · simp only [notify_condition, notify_condition_flag_false, if_neg hw]
    have hA : (VsmTree.get (VsmTree.set t i
        { VsmTree.get t i with condition_met := false }) i).condition_met = false := by
      rw [VsmTree.get_set, if_pos rfl]
    obtain ⟨hl, hm⟩ := notify_subs_met_false i runtime
      (find_subconditions fuel (VsmTree.set t i
        { VsmTree.get t i with condition_met := false }) i) _ hA
    refine ⟨by simp [hl], ?_, fun hcond => absurd hcond hw⟩
    cases hp : (VsmTree.get (notify_subs i runtime
        (find_subconditions fuel (VsmTree.set t i
          { VsmTree.get t i with condition_met := false }) i)
        (VsmTree.set t i { VsmTree.get t i with condition_met := false })).1
        i).parent with
    | none => simpa [hp] using hm
    | some p =>
      cases hg : (VsmTree.get (notify_subs i runtime
          (find_subconditions fuel (VsmTree.set t i
            { VsmTree.get t i with condition_met := false }) i)
          (VsmTree.set t i { VsmTree.get t i with condition_met := false })).1
          p).parent with
      | none => simpa [hp, hg] using hm
      | some g =>
        simp only [hp, hg]
        rw [(sequence_iterate_runtime_fields _ g i i).1]
        exact hm

/-- The break-at-first-blocked loop over one rule's condition nodes logs
exactly when some matching condition is blocked. -/
theorem first_blocked_skip_eq_any (t : VsmTree) (l : List Nat) :
    first_blocked_skip t l = l.any (fun c => condition_is_sequence_blocked t c) := by
  induction l with
  | nil => rfl
  | cons c cs ih =>
    simp only [first_blocked_skip, List.any_cons]
    by_cases h : condition_is_sequence_blocked t c = true
    · simp [h]
    · simp [h, ih]

/-- C2: a condition node is sequence-blocked exactly when it has a
sequence grandparent and is not the condition child, at the fixed
condition position, of the block at that sequence's current
next_grandchild_index; and the dispatch loop of got_signal logs the
skip line for a rule with a blocked matching condition and does not
execute it, while the remaining rules are dispatched unchanged. -/
theorem C2_sequence_blocked_and_dispatch :
    (∀ (t : VsmTree) (i : Nat),
        condition_is_sequence_blocked t i = true ↔
          ((VsmTree.get t i).node_type = NodeType.condition ∧
            ∃ p g, (VsmTree.get t i).parent = some p ∧
              (VsmTree.get t p).parent = some g ∧
              (VsmTree.get t g).node_type = NodeType.sequence ∧
              ¬ ∃ b, (VsmTree.get t g).children.get?
                    (VsmTree.get t g).next_grandchild_index = some b ∧
                  (VsmTree.get t b).children.get? NODE_CONDITION_POS = some i)) ∧
    (∀ (exec1 : VsmTree → Nat → VsmTree) (fuel root : Nat) (signal : String)
        (t : VsmTree) (r : Nat) (rs : List Nat),
        got_signal_rules exec1 fuel root signal (r :: rs) t =
          if (get_conditions_by_rule fuel t root r).any
              (fun c => condition_is_sequence_blocked t c) then
            ((got_signal_rules exec1 fuel root signal rs t).1,
              sequence_skip_msg signal ::
                (got_signal_rules exec1 fuel root signal rs t).2.1,
              (got_signal_rules exec1 fuel root signal rs t).2.2)
          else
            ((got_signal_rules exec1 fuel root signal rs (exec1 t r)).1,
              (got_signal_rules exec1 fuel root signal rs (exec1 t r)).2.1,
              r :: (got_signal_rules exec1 fuel root signal rs (exec1 t r)).2.2)) := by
  constructor
  · intro t i
    by_cases hty : (VsmTree.get t i).node_type = NodeType.condition
    · cases hp : (VsmTree.get t i).parent with
      | none =>
        have hgp : condition_get_sequence_grandparent t i = none := by
          unfold condition_get_sequence_grandparent
          simp [hty, hp]
        simp [condition_is_sequence_blocked, condition_is_sequence_next, hgp,
          hty, hp]
      | some p =>
        cases hg : (VsmTree.get t p).parent with
        | none =>
          have hgp : condition_get_sequence_grandparent t i = none := by
            unfold condition_get_sequence_grandparent
            simp [hty, hp, hg]
          simp [condition_is_sequence_blocked, condition_is_sequence_next, hgp,
            hty, hp, hg]
        | some g =>
          by_cases hs : (VsmTree.get t g).node_type = NodeType.sequence
          · have hgp : condition_get_sequence_grandparent t i = some g := by
              unfold condition_get_sequence_grandparent
              simp [hty, hp, hg, hs]
            cases hb : (VsmTree.get t g).children[(VsmTree.get t g).next_grandchild_index]? with
            | none =>
              simp [condition_is_sequence_blocked, condition_is_sequence_next,
                hgp, hty, hp, hg, hs, hb]
            | some b =>
              cases hc : (VsmTree.get t b).children[NODE_CONDITION_POS]? with
              | none =>
                simp [condition_is_sequence_blocked, condition_is_sequence_next,
                  hgp, hty, hp, hg, hs, hb, hc]
              | some c =>
                by_cases hci : c = i
                · simp [condition_is_sequence_blocked,
                    condition_is_sequence_next, hgp, hty, hp, hg, hs, hb, hc,
                    hci]
                · simp [condition_is_sequence_blocked,
                    condition_is_sequence_next, hgp, hty, hp, hg, hs, hb, hc,
                    hci]
          · have hgp : condition_get_sequence_grandparent t i = none := by
              unfold condition_get_sequence_grandparent
              simp [hty, hp, hg, hs]
            simp [condition_is_sequence_blocked, condition_is_sequence_next,
              hgp, hty, hp, hg, hs]
    · have hgp : condition_get_sequence_grandparent t i = none := by
        unfold condition_get_sequence_grandparent
        simp [hty]
      simp [condition_is_sequence_blocked, condition_is_sequence_next, hgp, hty]
  · intro exec1 fuel root signal t r rs
    rw [← first_blocked_skip_eq_any]
    by_cases hblk : first_blocked_skip t (get_conditions_by_rule fuel t root r) = true
    · simp [got_signal_rules, hblk]
    · simp [got_signal_rules, hblk]

/-- Two arenas agree on the structural fields of every node: kind, parent
link, child list and sequence index. The notify methods preserve this
skeleton, because they only touch runtime condition fields. -/
def skel_eq (t t' : VsmTree) : Prop :=
  ∀ k, (VsmTree.get t' k).node_type = (VsmTree.get t k).node_type ∧
    (VsmTree.get t' k).parent = (VsmTree.get t k).parent ∧
    (VsmTree.get t' k).children = (VsmTree.get t k).children ∧
    (VsmTree.get t' k).next_grandchild_index = (VsmTree.get t k).next_grandchild_index

/-- The skeleton relation is reflexive. -/
theorem skel_eq_refl (t : VsmTree) : skel_eq t t :=
  fun _ => ⟨rfl, rfl, rfl, rfl⟩

/-- The skeleton relation composes. -/
theorem skel_eq_trans {t1 t2 t3 : VsmTree} (h1 : skel_eq t1 t2)
    (h2 : skel_eq t2 t3) : skel_eq t1 t3 :=
  fun k => ⟨(h2 k).1.trans (h1 k).1, (h2 k).2.1.trans (h1 k).2.1,
    (h2 k).2.2.1.trans (h1 k).2.2.1, (h2 k).2.2.2.trans (h1 k).2.2.2⟩

/-- Writing a node that keeps the structural fields keeps the skeleton. -/
theorem skel_eq_set (t : VsmTree) (i : Nat) (n : Node)
    (h1 : n.node_type = (VsmTree.get t i).node_type)
    (h2 : n.parent = (VsmTree.get t i).parent)
    (h3 : n.children = (VsmTree.get t i).children)
    (h4 : n.next_grandchild_index = (VsmTree.get t i).next_grandchild_index) :
    skel_eq t (VsmTree.set t i n) := by
  intro k
  rw [VsmTree.get_set]
  by_cases hk : k = i
  · rw [if_pos hk, hk]
    exact ⟨h1, h2, h3, h4⟩
  · rw [if_neg hk]
    exact ⟨rfl, rfl, rfl, rfl⟩

/-- Monitor completion keeps the skeleton. -/
theorem skel_eq_monitor_completed (t : VsmTree) (i : Nat) (s : Bool)
    (m : String) : skel_eq t (monitor_completed t i s m).1 := by
  unfold monitor_completed
  split
  · exact skel_eq_set t i _ rfl rfl rfl rfl
  · exact skel_eq_set t i _ rfl rfl rfl rfl

/-- An ancestor notification keeps the skeleton. -/
theorem skel_eq_notify_ancestor (t : VsmTree) (j : Nat) (st : Bool)
    (rt : Int) : skel_eq t (notify_ancestor_condition t j st rt).1 := by
  unfold notify_ancestor_condition
  dsimp only
  split
  · split
    · exact skel_eq_set t j _ rfl rfl rfl rfl
    · exact skel_eq_refl t
  · exact skel_eq_monitor_completed t j true ""

/-- The subcondition loop keeps the skeleton. -/
theorem skel_eq_notify_subs (i : Nat) (rt : Int) (js : List Nat) :
    ∀ t : VsmTree, skel_eq t (notify_subs i rt js t).1 := by
  induction js with
  | nil => exact fun t => skel_eq_refl t
  | cons j js ih =>
    intro t
    exact skel_eq_trans
      (skel_eq_notify_ancestor t j (VsmTree.get t i).condition_met rt)
      (ih (notify_ancestor_condition t j (VsmTree.get t i).condition_met rt).1)

/-- The flag phase of notify_condition keeps the skeleton. -/
theorem skel_eq_flag (t : VsmTree) (i : Nat) (st : Bool) (rt : Int) :
    skel_eq t (notify_condition_flag t i st rt).1 := by
  unfold notify_condition_flag
  dsimp only
  split
  · split
    · exact skel_eq_set t i _ rfl rfl rfl rfl
    · exact skel_eq_refl t
  · split
    · exact skel_eq_trans
        (skel_eq_set t i { VsmTree.get t i with condition_met := false }
          rfl rfl rfl rfl)
        (skel_eq_monitor_completed _ i false _)
    · exact skel_eq_set t i _ rfl rfl rfl rfl

/-- The sequence grandparent lookup depends only on the skeleton. -/
theorem gp_congr {t t' : VsmTree} (h : skel_eq t t') (i : Nat) :
    condition_get_sequence_grandparent t' i
      = condition_get_sequence_grandparent t i := by
  unfold condition_get_sequence_grandparent
  obtain ⟨a1, a2, -, -⟩ := h i
  rw [a1, a2]
  by_cases hty : (VsmTree.get t i).node_type = NodeType.condition
  · rw [if_pos hty, if_pos hty]
    cases hp : (VsmTree.get t i).parent with
    | none => rfl
    | some p =>
      dsimp only
      obtain ⟨-, b2, -, -⟩ := h p
      rw [b2]
      cases hg : (VsmTree.get t p).parent with
      | none => rfl
      | some g =>
        dsimp only
        obtain ⟨c1, -, -, -⟩ := h g
        rw [c1]
  · rw [if_neg hty, if_neg hty]

/-- The sequence-next test depends only on the skeleton. -/
theorem seq_next_congr {t t' : VsmTree} (h : skel_eq t t') (i : Nat) :
    condition_is_sequence_next t' i = condition_is_sequence_next t i := by
  unfold condition_is_sequence_next
  rw [gp_congr h i]
  cases hgp : condition_get_sequence_grandparent t i with
  | none => rfl
  | some g =>
    dsimp only
    obtain ⟨-, -, c3, c4⟩ := h g
    rw [c3, c4]
    cases hb : (VsmTree.get t g).children.get?
        (VsmTree.get t g).next_grandchild_index with
    | none => rfl
    | some b =>
      dsimp only
      obtain ⟨-, -, d3, -⟩ := h b
      rw [d3]

/-- C3: a notify_condition call on a condition with a sequence grandparent
advances the grandparent's next_grandchild_index by one modulo the number
of its block children exactly when the condition is sequence-next at the
time of the call, whatever the new truth value; a call on a condition
that is not sequence-next leaves the index unchanged. -/
theorem C3_sequence_index_advance (fuel : Nat) (t : VsmTree) (i p g : Nat)
    (st : Bool) (runtime : Int)
    (hp : (VsmTree.get t i).parent = some p)
    (hg : (VsmTree.get t p).parent = some g)
    (hseq : (VsmTree.get t g).node_type = NodeType.sequence)
    (hidx : (VsmTree.get t g).next_grandchild_index
      < (VsmTree.get t g).children.length) :
    (VsmTree.get (notify_condition fuel t i st runtime).1 g).next_grandchild_index =
      (if condition_is_sequence_next t i then
        ((VsmTree.get t g).next_grandchild_index + 1)
          % (VsmTree.get t g).children.length
      else (VsmTree.get t g).next_grandchild_index) := by
  have hskel : skel_eq t (notify_subs i runtime
      (find_subconditions fuel (notify_condition_flag t i st runtime).1 i)
      (notify_condition_flag t i st runtime).1).1 :=
    skel_eq_trans (skel_eq_flag t i st runtime)
      (skel_eq_notify_subs i runtime
        (find_subconditions fuel (notify_condition_flag t i st runtime).1 i)
        (notify_condition_flag t i st runtime).1)
  have hp2 := (hskel i).2.1.trans hp
  have hg2 := (hskel p).2.1.trans hg
  simp only [notify_condition, hp2, hg2]
  simp only [sequence_iterate_safe]
  have hty2 := (hskel g).1.trans hseq
  rw [if_neg (fun hne => hne hty2)]
  rw [seq_next_congr hskel i]
  by_cases hnext : condition_is_sequence_next t i = true
  · rw [if_pos hnext, if_pos hnext, VsmTree.get_set, if_pos rfl]
    have hch := (hskel g).2.2.1
    have hix := (hskel g).2.2.2
    dsimp only
    rw [hch, hix]
    rcases Nat.lt_or_ge ((VsmTree.get t g).next_grandchild_index + 1)
        ((VsmTree.get t g).children.length) with hlt | hge
    · rw [if_neg (not_le.mpr hlt), Nat.mod_eq_of_lt hlt]
    · have heq : (VsmTree.get t g).next_grandchild_index + 1
          = (VsmTree.get t g).children.length :=
        Nat.le_antisymm (Nat.succ_le_of_lt hidx) hge
      rw [if_pos (le_of_eq heq.symm), heq, Nat.mod_self]
  · rw [if_neg hnext, if_neg hnext]
    exact (hskel g).2.2.2

/-- C3 witness: in the concrete sequence tree, notifying the sequence-next
condition advances the index from 0 to 1 modulo 2. -/
theorem C3_sequence_index_advance_witness :
    (VsmTree.get (notify_condition 9 c3_tree 3 true 0).1 1).next_grandchild_index =
      (if condition_is_sequence_next c3_tree 3 then
        ((VsmTree.get c3_tree 1).next_grandchild_index + 1)
          % (VsmTree.get c3_tree 1).children.length
      else (VsmTree.get c3_tree 1).next_grandchild_index) :=
  C3_sequence_index_advance 9 c3_tree 3 2 1 true 0 (by decide) (by decide)
    (by decide) (by decide)
